import Mathlib

/-!
Shallow embedding of `temba/api/views.py` (webhook event views and the
webhook tunnel relay), together with a model of the retry scheduler and
event store that the spec describes but whose implementation lives
outside the source tree of this file.
-/

namespace RapidProApi

/-! ## Embedding of Python 2 `urlparse.parse_qs` as called by `WebHookTunnelView.post`

`parse_qs(data)` is called with default arguments, so `keep_blank_values=0`
and `strict_parsing=0`: pairs are obtained by splitting on both ampersand and
semicolon, a pair with no equals sign or with an empty value is skipped,
plus signs become spaces, and percent escapes are decoded. -/

/-- Value of a hexadecimal digit character, if it is one. -/
def hexVal (c : Char) : Option Nat :=
  if '0' ≤ c ∧ c ≤ '9' then some (c.toNat - '0'.toNat)
  else if 'a' ≤ c ∧ c ≤ 'f' then some (c.toNat - 'a'.toNat + 10)
  else if 'A' ≤ c ∧ c ≤ 'F' then some (c.toNat - 'A'.toNat + 10)
  else none

/-- Percent-decoding over the character list, as Python 2 `urllib.unquote`:
a percent sign followed by two hex digits decodes to that byte, any other
percent sign is kept verbatim. -/
def unquoteAux : List Char → List Char
  | [] => []
  | '%' :: a :: b :: rest =>
    match hexVal a, hexVal b with
    | some ha, some hb => Char.ofNat (16 * ha + hb) :: unquoteAux rest
    | _, _ => '%' :: unquoteAux (a :: b :: rest)
  | '%' :: rest => '%' :: unquoteAux rest
  | c :: rest => c :: unquoteAux rest

/-- The function `urllib.unquote` on strings. -/
def unquote (s : String) : String := ⟨unquoteAux s.data⟩

/-- The `.replace` of plus signs by spaces done by `parse_qsl` before unquoting. -/
def plusToSpace (s : String) : String :=
  ⟨s.data.map (fun c => if c = '+' then ' ' else c)⟩

/-- Python `str.split(sep)` with a single-character separator: keeps empty
fields, and the empty string yields one empty field. -/
def splitOnChar (sep : Char) : List Char → List (List Char)
  | [] => [[]]
  | c :: rest =>
    match splitOnChar sep rest with
    | [] => if c = sep then [[], []] else [[c]]
    | h :: t => if c = sep then [] :: h :: t else (c :: h) :: t

/-- The function `parse_qsl` first splits the query string on ampersands, then each piece
on semicolons. -/
def splitPairs (qs : String) : List (List Char) :=
  (splitOnChar '&' qs.data).flatMap (splitOnChar ';')

/-- Split a pair at its first equals sign, when it has one
(the two-way split of Python, keeping only the two-element case). -/
def splitFirstEq : List Char → Option (List Char × List Char)
  | [] => none
  | c :: rest =>
    if c = '=' then some ([], rest)
    else
      match splitFirstEq rest with
      | none => none
      | some (n, v) => some (c :: n, v)

/-- Processing of one `name=value` pair by `parse_qsl` under the default
arguments: the empty pair is skipped, a pair without an equals sign is
skipped, a pair whose value is empty is skipped, and otherwise name and
value get plus-to-space replacement followed by percent-decoding. -/
def parsePair (nv : List Char) : Option (String × String) :=
  if nv = [] then none
  else
    match splitFirstEq nv with
    | none => none
    | some (n, v) =>
      if v = [] then none
      else some (unquote (plusToSpace ⟨n⟩), unquote (plusToSpace ⟨v⟩))

/-- The call `urlparse.parse_qsl(qs)` with default arguments. -/
def parse_qsl (qs : String) : List (String × String) :=
  (splitPairs qs).filterMap parsePair

/-- One step of the dictionary building loop of `parse_qs`: append the value
to the list of the key when the key is present, otherwise add a new binding. -/
def insertQS (acc : List (String × List String)) (kv : String × String) :
    List (String × List String) :=
  if acc.any (fun p => p.1 == kv.1) then
    acc.map (fun p => if p.1 == kv.1 then (p.1, p.2 ++ [kv.2]) else p)
  else acc ++ [(kv.1, [kv.2])]

/-- The call `urlparse.parse_qs(qs)` with default arguments, as an association list
with one entry per distinct key, in first-occurrence order. -/
def parse_qs (qs : String) : List (String × List String) :=
  (parse_qsl qs).foldl insertQS []

/-! ## `WebHookTunnelView.post` -/

/-- The literal allow-list of `WebHookTunnelView.post`. -/
def allowedKeys : List String :=
  ["relayer", "channel", "sms", "phone", "text", "time", "call", "duration",
   "power_level", "power_status", "power_source", "network_type",
   "pending_message_count", "retry_message_count", "last_seen", "event",
   "step", "values", "flow", "relayer_phone"]

/-- The filtering loop of `WebHookTunnelView.post`: keep exactly the parsed
entries whose key is on the allow-list. -/
def filterOutgoing (incoming : List (String × List String)) :
    List (String × List String) :=
  incoming.filter (fun kv => decide (kv.1 ∈ allowedKeys))

/-- The form fields of the incoming request that `post` reads; a field is
`none` when absent from `request.POST`. -/
structure PostRequest where
  url : Option String
  data : Option String

/-- Outcome of the outbound `requests.post` call: either a response whose
text is returned, or an exception whose string form is returned. Any
exception raised inside the handler body is covered by the same case. -/
inductive NetOutcome where
  | success (text : String)
  | failure (message : String)
deriving DecidableEq

/-- An HTTP response as the view produces it: a status code and a body. -/
structure TunnelResponse where
  status : Nat
  body : String
deriving DecidableEq

/-- The fixed 400 message of `WebHookTunnelView.post`. -/
def missingParamsMessage : String :=
  "Must include both \x27url\x27 and \x27data\x27 parameters."

/-- The handler `WebHookTunnelView.post`, with the network modelled as a function from
the destination URL and the filtered payload to an outcome. Missing `url`
or `data` yields the fixed 400; otherwise the payload is parsed with
`parse_qs`, filtered against the allow-list, posted, and either the
response text or the caught exception text is returned with status 200. -/
def WebHookTunnelView_post
    (net : String → List (String × List String) → NetOutcome)
    (req : PostRequest) : TunnelResponse :=
  match req.url, req.data with
  | some url, some data =>
    match net url (filterOutgoing (parse_qs data)) with
    | NetOutcome.success text => { status := 200, body := text }
    | NetOutcome.failure message => { status := 200, body := message }
  | _, _ => { status := 400, body := missingParamsMessage }

/-! ## `webhook_status_processor` -/

/-- The parts of `request.user` that `webhook_status_processor` reads.
`org` is the identifier returned by `user.get_org()`, `none` when the user
has no org. -/
structure UserCtx where
  is_superuser : Bool
  is_anonymous : Bool
  org : Option Nat

/-- The columns of a `WebHookEvent` row that the views in this file read.
`status` is the single-character status code of the model, `created_on`
and `next_attempt` are timestamps in seconds. -/
structure WebHookEvent where
  org : Nat
  status : Char
  created_on : Int
deriving DecidableEq

/-- The queryset
`WebHookEvent.objects.filter(org=org, status__in=[ F, E ], created_on__gte=past_hour)`
with `past_hour = timezone.now() - timedelta(hours=1)`, timestamps in
seconds. The `order_by` does not change membership or count. -/
def failedEvents (events : List WebHookEvent) (now : Int) (org : Nat) :
    List WebHookEvent :=
  events.filter (fun e =>
    e.org == org && (e.status == 'F' || e.status == 'E') &&
      decide (now - 3600 ≤ e.created_on))

/-- The processor `webhook_status_processor`: the returned context dictionary, as `none`
when it carries no keys and `some n` when it carries
`failed_webhooks=True` and `webhook_errors_count=n`. -/
def webhook_status_processor (events : List WebHookEvent) (now : Int)
    (user : UserCtx) : Option Nat :=
  if user.is_superuser || user.is_anonymous then none
  else
    match user.org with
    | none => none
    | some org =>
      if (failedEvents events now org).isEmpty then none
      else some (failedEvents events now org).length

/-! ## `WebHookEventMixin` and the list and read views -/

/-- The method `WebHookEventMixin.derive_queryset`:
`WebHookEvent.objects.filter(org=org)` for the org derived from the
requesting user. -/
def derive_queryset (events : List WebHookEvent) (org : Nat) :
    List WebHookEvent :=
  events.filter (fun e => e.org == org)

/-- The descending `created_on` order declared by the `default_order` of
the list view. -/
def newerFirst (a b : WebHookEvent) : Prop :=
  b.created_on ≤ a.created_on

instance : DecidableRel newerFirst := fun a b =>
  inferInstanceAs (Decidable (b.created_on ≤ a.created_on))

instance : IsTotal WebHookEvent newerFirst :=
  ⟨fun a b => le_total b.created_on a.created_on⟩

instance : IsTrans WebHookEvent newerFirst :=
  ⟨fun _ _ _ hab hbc => le_trans hbc hab⟩

/-- Modelled from the spec: the ordering machinery of the smartmin
`SmartListView` is not part of the source file; the view only declares
`default_order` as descending `created_on`, and the spec requires the list
to be ordered newest-first. We model the application of that
declaration by the framework as a stable sort by `created_on` descending. -/
def orderNewestFirst (events : List WebHookEvent) : List WebHookEvent :=
  events.insertionSort newerFirst

/-- The view `WebHookEventListView`: the rows it renders, namely the tenant-scoped
queryset of the mixin ordered by its `default_order` of descending
`created_on`. -/
def webHookEventListRows (events : List WebHookEvent) (org : Nat) :
    List WebHookEvent :=
  orderNewestFirst (derive_queryset events org)

/-- The fields of the event row that `get_next_attempt` reads. -/
structure ReadEvent where
  next_attempt : Option Int
  try_count : Nat
  status : Char

/-- The string `"Around %s" % obj.next_attempt`. -/
def aroundText (t : Int) : String := "Around " ++ toString t

/-- The method `WebHookEventReadView.get_next_attempt`, including the spelling that
the source gives its last message. -/
def get_next_attempt (obj : ReadEvent) : String :=
  match obj.next_attempt with
  | some t => aroundText t
  | none =>
    if obj.try_count = 3 then "Never, three attempts errored, failed permanently"
    else if obj.status = 'C' then "Never, event delivered successfully"
    else "Never, event deliverey failed permanently"

/-- The method `WebHookEventMixin.get_tries`: the `try_count` of the event. -/
def get_tries (try_count : Nat) : Nat := try_count

/-! ## Retry scheduler and event store

Modelled from the spec: the `WebHookEvent` model methods that implement
delivery, retry scheduling and the due-event query live in
`temba.api.models`, outside the source file; only their read-side views
are in it. The definitions below follow the data model and state
machine. -/

/-- Modelled from the spec: the four event statuses of the state machine. -/
inductive EventStatus where
  | Queued
  | Errored
  | Failed
  | Completed
deriving DecidableEq

/-- Modelled from the spec: the classification of one delivery attempt. -/
inductive AttemptOutcome where
  | success
  | networkError
  | timeout
deriving DecidableEq

/-- Modelled from the spec: the mutable lifecycle fields of an event, with
timestamps as natural numbers. -/
structure SchedState where
  status : EventStatus
  try_count : Nat
  next_attempt : Option Nat
deriving DecidableEq

/-- Modelled from the spec: the retry bound, three attempts. -/
def MaxAttempts : Nat := 3

/-- Modelled from the spec: exponential backoff with base interval one. The
exact constants are a tuning parameter, not a correctness requirement. -/
def backoff (n : Nat) : Nat := 2 ^ (n - 1)

/-- Modelled from the spec: the transition of the retry scheduler on a finished
attempt. Success completes the event and clears `next_attempt`; a failure
increments `try_count` and either fails the event permanently at
`MaxAttempts` or schedules a retry after the backoff. `try_count`
increments in every case. -/
def applyOutcome (now : Nat) (s : SchedState) (o : AttemptOutcome) :
    SchedState :=
  match o with
  | AttemptOutcome.success =>
    { status := EventStatus.Completed, try_count := s.try_count + 1,
      next_attempt := none }
  | _ =>
    if MaxAttempts ≤ s.try_count + 1 then
      { status := EventStatus.Failed, try_count := s.try_count + 1,
        next_attempt := none }
    else
      { status := EventStatus.Errored, try_count := s.try_count + 1,
        next_attempt := some (now + backoff (s.try_count + 1)) }

/-- Modelled from the spec: a freshly created event is `Queued` with
`try_count = 0` and `next_attempt = now`. -/
def initState (now : Nat) : SchedState :=
  { status := EventStatus.Queued, try_count := 0, next_attempt := some now }

/-- Modelled from the spec: the dispatcher only attempts events it obtained
from `listDue`, whose statuses are `Queued` or `Errored`. -/
def dispatchable (s : SchedState) : Prop :=
  s.status = EventStatus.Queued ∨ s.status = EventStatus.Errored

instance (s : SchedState) : Decidable (dispatchable s) := by
  unfold dispatchable
  infer_instance

/-- Modelled from the spec: the lifecycle states an event can be in, along
any sequence of delivery outcomes: it starts as a freshly created event,
and each completed attempt steps it through the scheduler, attempts being
made only on dispatchable events. -/
inductive Reachable : SchedState → Prop where
  | init (now : Nat) : Reachable (initState now)
  | step (s : SchedState) (o : AttemptOutcome) (now : Nat) :
      Reachable s → dispatchable s → Reachable (applyOutcome now s o)

/-- Modelled from the spec: the `listDue` predicate, status `Queued` or
`Errored` and `next_attempt` present and not after `now`. -/
def due (now : Nat) (s : SchedState) : Bool :=
  (s.status == EventStatus.Queued || s.status == EventStatus.Errored) &&
    match s.next_attempt with
    | some t => decide (t ≤ now)
    | none => false

/-- Modelled from the spec: `listDue(now)` over the rows of the event store. -/
def listDue (now : Nat) (events : List SchedState) : List SchedState :=
  events.filter (due now)

/-! ## Theorems -/

/-- C1: the relay forwards only allow-listed keys: every key of the
forwarded mapping is on the allow-list, every allow-listed key present in
the parsed input is forwarded with its parsed values, any key not on the
list is dropped, and on
`data="relayer=5&bogus=1&phone=%2B250788123123"` the forwarded payload is
exactly the `relayer` and `phone` entries, never `bogus`. -/
theorem relay_forwards_only_allowlisted_keys :
    (∀ data k vs, (k, vs) ∈ filterOutgoing (parse_qs data) → k ∈ allowedKeys) ∧
    (∀ data k vs, (k, vs) ∈ parse_qs data → k ∈ allowedKeys →
      (k, vs) ∈ filterOutgoing (parse_qs data)) ∧
    (∀ data k vs, k ∉ allowedKeys → (k, vs) ∉ filterOutgoing (parse_qs data)) ∧
    filterOutgoing (parse_qs "relayer=5&bogus=1&phone=%2B250788123123") =
      [("relayer", ["5"]), ("phone", ["+250788123123"])] := by
  refine ⟨?_, ?_, ?_, by decide⟩
  · intro data k vs h
    have h2 := List.mem_filter.mp h
    simpa using h2.2
  · intro data k vs hmem hkey
    exact List.mem_filter.mpr ⟨hmem, by simpa using hkey⟩
  · intro data k vs hkey h
    exact hkey (by simpa using (List.mem_filter.mp h).2)

/-- C1 witness: the forward direction applied on the concrete payload. -/
theorem relay_forwards_only_allowlisted_keys_witness :
    ("phone", ["+250788123123"]) ∈
      filterOutgoing (parse_qs "relayer=5&bogus=1&phone=%2B250788123123") :=
  relay_forwards_only_allowlisted_keys.2.1
    "relayer=5&bogus=1&phone=%2B250788123123" "phone" ["+250788123123"]
    (by decide) (by decide)

/-- C2: with both `url` and `data` present, the relay handler never raises
past its boundary: its status is always 200, the body is the downstream
response text on success, and on any failure the body is the textual
description of the failure. -/
theorem relay_never_raises
    (net : String → List (String × List String) → NetOutcome)
    (req : PostRequest) (u d : String)
    (hu : req.url = some u) (hd : req.data = some d) :
    (WebHookTunnelView_post net req).status = 200 ∧
    (∀ t, net u (filterOutgoing (parse_qs d)) = NetOutcome.success t →
      (WebHookTunnelView_post net req).body = t) ∧
    (∀ m, net u (filterOutgoing (parse_qs d)) = NetOutcome.failure m →
      (WebHookTunnelView_post net req).body = m) := by
  cases hnet : net u (filterOutgoing (parse_qs d)) <;>
    simp [WebHookTunnelView_post, hu, hd, hnet]

/-- C2 witness: the theorem applied to a concrete request over a network
that fails with a timeout message. -/
theorem relay_never_raises_witness :
    (WebHookTunnelView_post (fun _ _ => NetOutcome.failure "timed out")
      { url := some "http://x", data := some "relayer=5" }).status = 200 ∧
    (WebHookTunnelView_post (fun _ _ => NetOutcome.failure "timed out")
      { url := some "http://x", data := some "relayer=5" }).body = "timed out" := by
  have h := relay_never_raises (fun _ _ => NetOutcome.failure "timed out")
    { url := some "http://x", data := some "relayer=5" } "http://x" "relayer=5"
    rfl rfl
  exact ⟨h.1, h.2.2 "timed out" rfl⟩

/-- C3: the relay responds with status 400 and the fixed message exactly
when `url` or `data` is absent, and this is a returned response, not an
exception (the handler is a total function). -/
theorem relay_missing_params_400
    (net : String → List (String × List String) → NetOutcome)
    (req : PostRequest) :
    ((WebHookTunnelView_post net req).status = 400 ∧
      (WebHookTunnelView_post net req).body = missingParamsMessage) ↔
    (req.url = none ∨ req.data = none) := by
  cases hru : req.url with
  | none => simp [WebHookTunnelView_post, hru]
  | some u =>
    cases hrd : req.data with
    | none => simp [WebHookTunnelView_post, hru, hrd]
    | some d =>
      cases hnet : net u (filterOutgoing (parse_qs d)) <;>
        simp [WebHookTunnelView_post, hru, hrd, hnet]

/-- C3 witness: the theorem applied to a concrete request with `data`
absent. -/
theorem relay_missing_params_400_witness :
    (WebHookTunnelView_post (fun _ _ => NetOutcome.success "ok")
      { url := some "http://x", data := none }).status = 400 ∧
    (WebHookTunnelView_post (fun _ _ => NetOutcome.success "ok")
      { url := some "http://x", data := none }).body =
      missingParamsMessage :=
  (relay_missing_params_400 (fun _ _ => NetOutcome.success "ok")
    { url := some "http://x", data := none }).mpr (Or.inr rfl)

/-- The `Around` rendering of a scheduled time is never the
delivered-successfully message: the two differ at their first character. -/
theorem aroundText_ne_success (t : Int) :
    aroundText t ≠ "Never, event delivered successfully" := by
  intro h
  have h2 : (aroundText t).data = "Never, event delivered successfully".data :=
    congrArg String.data h
  have h3 : 'A' :: ("round ".data ++ (toString t).data) =
      'N' :: "ever, event delivered successfully".data := h2
  have h4 : 'A' = 'N' := List.head_eq_of_cons_eq h3
  exact absurd h4 (by decide)

/-- C9: in `get_next_attempt`, for an event with `next_attempt` absent the
`try_count == 3` branch takes precedence over the status check, so such an
event is described as permanently failed even when its status is `C`; the
delivered-successfully text is produced exactly when `next_attempt` is
absent, `try_count` differs from 3 and the status is `C`. -/
theorem get_next_attempt_try_count_precedence :
    (∀ obj : ReadEvent, obj.next_attempt = none → obj.try_count = 3 →
      get_next_attempt obj = "Never, three attempts errored, failed permanently") ∧
    (∀ obj : ReadEvent,
      get_next_attempt obj = "Never, event delivered successfully" ↔
        obj.next_attempt = none ∧ obj.try_count ≠ 3 ∧ obj.status = 'C') := by
  constructor
  · intro obj hna htc
    simp [get_next_attempt, hna, htc]
  · intro obj
    cases hna : obj.next_attempt with
    | some t =>
      simp only [get_next_attempt, hna]
      constructor
      · intro h
        exact absurd h (aroundText_ne_success t)
      · rintro ⟨h, -⟩
        cases h
    | none =>
      by_cases htc : obj.try_count = 3
      · simp [get_next_attempt, hna, htc]
      · by_cases hst : obj.status = 'C' <;>
          simp [get_next_attempt, hna, htc, hst]

/-- C9 witness: an event with no next attempt, three tries and status `C`
is described as permanently failed. -/
theorem get_next_attempt_try_count_precedence_witness :
    get_next_attempt { next_attempt := none, try_count := 3, status := 'C' } =
      "Never, three attempts errored, failed permanently" :=
  get_next_attempt_try_count_precedence.1
    { next_attempt := none, try_count := 3, status := 'C' } rfl rfl

/-- Splitting a pair made of an equals-free name followed by an equals sign
isolates that name and an empty value. -/
theorem splitFirstEq_append_eq (name : List Char) (h : '=' ∉ name) :
    splitFirstEq (name ++ ['=']) = some (name, []) := by
  induction name with
  | nil => simp [splitFirstEq]
  | cons c rest ih =>
    have hc : c ≠ '=' := fun hc => h (hc ▸ List.mem_cons_self c rest)
    have hrest : '=' ∉ rest := fun hr => h (List.mem_cons_of_mem c hr)
    simp [splitFirstEq, hc, ih hrest]

/-- C10: the relay drops allow-listed keys whose values are blank, because
`parse_qs` under its defaults discards blank values: a pair of an
equals-free name and an empty value parses to nothing; in particular
`relayer=` yields an empty parsed mapping although `relayer` is on the
allow-list, and `relayer=&phone=%2B250788123123` forwards only `phone`. -/
theorem relay_drops_blank_values :
    (∀ name : List Char, '=' ∉ name → parsePair (name ++ ['=']) = none) ∧
    parse_qs "relayer=" = [] ∧
    "relayer" ∈ allowedKeys ∧
    filterOutgoing (parse_qs "relayer=&phone=%2B250788123123") =
      [("phone", ["+250788123123"])] := by
  refine ⟨?_, by decide, by decide, by decide⟩
  intro name h
  have hne : name ++ ['='] ≠ [] := by simp
  simp [parsePair, hne, splitFirstEq_append_eq name h]

/-- C10 witness: the blank-value rule applied to the `relayer` key. -/
theorem relay_drops_blank_values_witness :
    parsePair ("relayer".data ++ ['=']) = none :=
  relay_drops_blank_values.1 "relayer".data (by decide)

/-- C5: for a non-superuser, non-anonymous user with an org, the status
processor counts exactly the events of that org whose status is `F` or
`E` created within the past hour; it reports the count exactly when it is
positive and otherwise returns the empty context. -/
theorem webhook_status_processor_counts_recent_failures
    (events : List WebHookEvent) (now : Int) (user : UserCtx) (org : Nat)
    (hsu : user.is_superuser = false) (han : user.is_anonymous = false)
    (horg : user.org = some org) :
    (∀ e, e ∈ failedEvents events now org ↔
      e ∈ events ∧ e.org = org ∧ (e.status = 'F' ∨ e.status = 'E') ∧
        now - 3600 ≤ e.created_on) ∧
    (0 < (failedEvents events now org).length →
      webhook_status_processor events now user =
        some (failedEvents events now org).length) ∧
    ((failedEvents events now org).length = 0 →
      webhook_status_processor events now user = none) := by
  refine ⟨?_, ?_, ?_⟩
  · intro e
    simp only [failedEvents, List.mem_filter, Bool.and_eq_true, Bool.or_eq_true,
      beq_iff_eq, decide_eq_true_eq]
    tauto
  · intro hpos
    have hne : (failedEvents events now org).isEmpty = false := by
      cases hfe : failedEvents events now org with
      | nil => rw [hfe] at hpos; simp at hpos
      | cons a l => simp [hfe]
    simp [webhook_status_processor, hsu, han, horg, hne]
  · intro hzero
    have hemp : (failedEvents events now org).isEmpty = true := by
      rw [List.isEmpty_iff_length_eq_zero]
      exact hzero
    simp [webhook_status_processor, hsu, han, horg, hemp]

/-- C5 witness: one in-window failed event of the org of the user is counted,
on a concrete store holding also an out-of-org and a stale event. -/
theorem webhook_status_processor_counts_recent_failures_witness :
    webhook_status_processor
      [{ org := 7, status := 'F', created_on := 9000 },
       { org := 8, status := 'F', created_on := 9000 },
       { org := 7, status := 'F', created_on := 100 }]
      10000 { is_superuser := false, is_anonymous := false, org := some 7 } =
      some 1 := by
  have h := webhook_status_processor_counts_recent_failures
    [{ org := 7, status := 'F', created_on := 9000 },
     { org := 8, status := 'F', created_on := 9000 },
     { org := 7, status := 'F', created_on := 100 }]
    10000 { is_superuser := false, is_anonymous := false, org := some 7 } 7
    rfl rfl rfl
  have h2 := h.2.1 (by decide)
  simpa using h2

/-- The lifecycle state of a fresh event after two failed delivery
attempts. -/
def afterTwoFailures : SchedState :=
  applyOutcome 1 (applyOutcome 0 (initState 0) AttemptOutcome.networkError)
    AttemptOutcome.networkError

/-- Two failed attempts on a fresh event follow the dispatch discipline, so
the resulting state is reachable. -/
theorem afterTwoFailures_reachable : Reachable afterTwoFailures := by
  apply Reachable.step
  · apply Reachable.step
    · exact Reachable.init 0
    · exact Or.inl rfl
  · exact Or.inr (by decide)

/-- C4 counterexample: a success on the third attempt produces a reachable
state with `try_count = 3` whose status is `Completed`, not `Failed`. -/
theorem try_count_three_completed_reachable :
    Reachable (applyOutcome 2 afterTwoFailures AttemptOutcome.success) ∧
    (applyOutcome 2 afterTwoFailures AttemptOutcome.success).try_count = 3 ∧
    (applyOutcome 2 afterTwoFailures AttemptOutcome.success).status =
      EventStatus.Completed ∧
    (applyOutcome 2 afterTwoFailures AttemptOutcome.success).status ≠
      EventStatus.Failed := by
  refine ⟨?_, by decide, by decide, by decide⟩
  exact Reachable.step afterTwoFailures AttemptOutcome.success 2
    afterTwoFailures_reachable (Or.inr (by decide))

/-- C4 amended: in every reachable lifecycle state, `try_count = 3` implies
the status is terminal (`Failed` or `Completed`) and `next_attempt` is
absent, and status `Completed` implies `next_attempt` is absent. -/
theorem reachable_try_count_three_terminal (s : SchedState)
    (h : Reachable s) :
    (s.try_count = 3 →
      (s.status = EventStatus.Failed ∨ s.status = EventStatus.Completed) ∧
        s.next_attempt = none) ∧
    (s.status = EventStatus.Completed → s.next_attempt = none) := by
  cases h with
  | init now => simp [initState]
  | step s o now hr hd =>
    cases o with
    | success => simp [applyOutcome]
    | networkError =>
      simp only [applyOutcome, MaxAttempts]
      split
      · simp
      · next hmax => simp; omega
    | timeout =>
      simp only [applyOutcome, MaxAttempts]
      split
      · simp
      · next hmax => simp; omega

/-- C4 witness for the amended invariant: a third failure from the
two-failures state gives `try_count = 3`, where the invariant yields a
terminal status with no next attempt. -/
theorem reachable_try_count_three_terminal_witness :
    ((applyOutcome 2 afterTwoFailures AttemptOutcome.timeout).status =
        EventStatus.Failed ∨
      (applyOutcome 2 afterTwoFailures AttemptOutcome.timeout).status =
        EventStatus.Completed) ∧
    (applyOutcome 2 afterTwoFailures AttemptOutcome.timeout).next_attempt =
      none :=
  (reachable_try_count_three_terminal
    (applyOutcome 2 afterTwoFailures AttemptOutcome.timeout)
    (Reachable.step afterTwoFailures AttemptOutcome.timeout 2
      afterTwoFailures_reachable (Or.inr (by decide)))).1 (by decide)

/-- Every reachable state has at most `MaxAttempts` tries, strictly fewer
while it is still dispatchable. -/
theorem reachable_try_count_le (s : SchedState) (h : Reachable s) :
    s.try_count ≤ 3 ∧ (dispatchable s → s.try_count < 3) := by
  induction h with
  | init now => simp [initState]
  | step s o now hr hd ih =>
    have hlt : s.try_count < 3 := ih.2 hd
    cases o with
    | success => simp [applyOutcome, dispatchable]; omega
    | networkError =>
      simp only [applyOutcome, MaxAttempts]
      split <;> simp [dispatchable] <;> omega
    | timeout =>
      simp only [applyOutcome, MaxAttempts]
      split <;> simp [dispatchable] <;> omega

/-- C6: `try_count` starts at 0, increments exactly once per completed
delivery attempt, is monotonically non-decreasing across the lifecycle,
and never exceeds `MaxAttempts` in any reachable state. -/
theorem try_count_bounded_monotone :
    (∀ now, (initState now).try_count = 0) ∧
    (∀ now s o, (applyOutcome now s o).try_count = s.try_count + 1) ∧
    (∀ now s o, s.try_count ≤ (applyOutcome now s o).try_count) ∧
    (∀ s, Reachable s → s.try_count ≤ MaxAttempts) := by
  have hstep : ∀ now s o, (applyOutcome now s o).try_count = s.try_count + 1 := by
    intro now s o
    cases o <;> by_cases hmax : MaxAttempts ≤ s.try_count + 1 <;>
      simp [applyOutcome, hmax]
  refine ⟨fun now => rfl, hstep, ?_, ?_⟩
  · intro now s o
    rw [hstep now s o]
    exact Nat.le_succ _
  · intro s h
    exact (reachable_try_count_le s h).1

/-- C6 witness: the reachable two-failures state is within the bound. -/
theorem try_count_bounded_monotone_witness :
    afterTwoFailures.try_count ≤ MaxAttempts :=
  try_count_bounded_monotone.2.2.2 afterTwoFailures afterTwoFailures_reachable

/-- The boolean due-test holds exactly for a dispatchable status with a
scheduled time not after `now`. -/
theorem due_eq_true_iff (now : Nat) (s : SchedState) :
    due now s = true ↔
      (s.status = EventStatus.Queued ∨ s.status = EventStatus.Errored) ∧
        ∃ t, s.next_attempt = some t ∧ t ≤ now := by
  unfold due
  cases hna : s.next_attempt <;> simp [hna]

/-- C7: `listDue` returns only events whose status is `Queued` or `Errored`
with a due `next_attempt`; an event in a terminal state is never returned
by `listDue`; and a third consecutive failure moves an event to `Failed`,
after which `listDue` never returns it. -/
theorem terminal_never_listed_due :
    (∀ now events s, s ∈ listDue now events →
      s ∈ events ∧ (s.status = EventStatus.Queued ∨ s.status = EventStatus.Errored) ∧
        ∃ t, s.next_attempt = some t ∧ t ≤ now) ∧
    (∀ now events s,
      s.status = EventStatus.Completed ∨ s.status = EventStatus.Failed →
      s ∉ listDue now events) ∧
    (∀ now s o, o ≠ AttemptOutcome.success → s.try_count = 2 →
      (applyOutcome now s o).status = EventStatus.Failed ∧
      ∀ t events, applyOutcome now s o ∉ listDue t events) := by
  have hmem : ∀ now events s, s ∈ listDue now events →
      s ∈ events ∧ (s.status = EventStatus.Queued ∨ s.status = EventStatus.Errored) ∧
        ∃ t, s.next_attempt = some t ∧ t ≤ now := by
    intro now events s h
    have h2 := List.mem_filter.mp h
    exact ⟨h2.1, (due_eq_true_iff now s).mp h2.2⟩
  refine ⟨hmem, ?_, ?_⟩
  · intro now events s hterm h
    rcases (hmem now events s h).2.1 with hq | he
    · rcases hterm with hc | hf
      · rw [hc] at hq; cases hq
      · rw [hf] at hq; cases hq
    · rcases hterm with hc | hf
      · rw [hc] at he; cases he
      · rw [hf] at he; cases he
  · intro now s o ho htc
    have hfail : (applyOutcome now s o).status = EventStatus.Failed := by
      cases o with
      | success => exact absurd rfl ho
      | networkError => simp [applyOutcome, htc, MaxAttempts]
      | timeout => simp [applyOutcome, htc, MaxAttempts]
    refine ⟨hfail, ?_⟩
    intro t events h
    rcases (hmem t events _ h).2.1 with hq | he
    · rw [hfail] at hq; cases hq
    · rw [hfail] at he; cases he

/-- C7 witness: a concrete completed event sitting in the store is not
returned by `listDue`. -/
theorem terminal_never_listed_due_witness :
    ({ status := EventStatus.Completed, try_count := 1, next_attempt := none } :
        SchedState) ∉
      listDue 5
        [{ status := EventStatus.Completed, try_count := 1, next_attempt := none }] :=
  terminal_never_listed_due.2.1 5
    [{ status := EventStatus.Completed, try_count := 1, next_attempt := none }]
    { status := EventStatus.Completed, try_count := 1, next_attempt := none }
    (Or.inl rfl)

/-- C8: the event list view is tenant-scoped and newest-first: the derived
queryset holds exactly the stored events of the derived org, and the
rendered rows are a permutation of that queryset ordered by descending
`created_on`. -/
theorem event_list_tenant_scoped_newest_first (events : List WebHookEvent)
    (org : Nat) :
    (∀ e, e ∈ derive_queryset events org ↔ e ∈ events ∧ e.org = org) ∧
    (webHookEventListRows events org).Perm (derive_queryset events org) ∧
    (webHookEventListRows events org).Pairwise
      (fun a b => b.created_on ≤ a.created_on) := by
  refine ⟨?_, ?_, ?_⟩
  · intro e
    simp [derive_queryset, List.mem_filter]
  · exact List.perm_insertionSort newerFirst _
  · exact List.sorted_insertionSort newerFirst _

/-- C8 witness: the theorem applied to a concrete store, giving membership
of an org-4 event and the newest-first ordering of the rendered rows. -/
theorem event_list_tenant_scoped_newest_first_witness :
    ({ org := 4, status := 'F', created_on := 20 } : WebHookEvent) ∈
      derive_queryset
        [{ org := 4, status := 'C', created_on := 10 },
         { org := 9, status := 'C', created_on := 30 },
         { org := 4, status := 'F', created_on := 20 }] 4 ∧
    (webHookEventListRows
      [{ org := 4, status := 'C', created_on := 10 },
       { org := 9, status := 'C', created_on := 30 },
       { org := 4, status := 'F', created_on := 20 }] 4).Pairwise
      (fun a b => b.created_on ≤ a.created_on) :=
  ⟨((event_list_tenant_scoped_newest_first
      [{ org := 4, status := 'C', created_on := 10 },
       { org := 9, status := 'C', created_on := 30 },
       { org := 4, status := 'F', created_on := 20 }] 4).1
      { org := 4, status := 'F', created_on := 20 }).mpr (by decide),
    (event_list_tenant_scoped_newest_first
      [{ org := 4, status := 'C', created_on := 10 },
       { org := 9, status := 'C', created_on := 30 },
       { org := 4, status := 'F', created_on := 20 }] 4).2.2⟩

end RapidProApi
